import Mathlib

/-!
Verification of the larik-sql-studio backend core against its specification.

The Rust source is shallowly embedded in Lean:
* strings under character-level processing become `List Char` (`Chars`);
  all case conversion is ASCII, as in the source's `eq_ignore_ascii_case`
  and keyword comparisons;
* the embedded SQLite store becomes an explicit record of table rows, and
  every `with_connection`/transaction block becomes a pure state-passing
  function; fallible database steps are driven by an explicit failure
  oracle where a claim is about failure behaviour;
* external servers (SQL Server row data, the FTS5 engine) become oracles:
  total functions handed to the embedded code, so theorems quantify over
  every possible server behaviour;
* `f64` values are abstracted by the observations the exporter makes of
  them (`fract() == 0`, `to_string()`, `format!("\x7b:.1\x7d", _)`), since
  floating point itself is outside the embedding.
-/

set_option maxHeartbeats 1000000

abbrev Chars := List Char

/-- ASCII uppercase of a character list, mirroring Rust `to_uppercase` on the
ASCII inputs used by the code. -/
def toUpperL (s : Chars) : Chars := s.map Char.toUpper

/-- ASCII lowercase, mirroring `eq_ignore_ascii_case` comparisons. -/
def toLowerL (s : Chars) : Chars := s.map Char.toLower

/-- Rust `str::trim` (leading and trailing whitespace removed). -/
def trimL (s : Chars) : Chars :=
  ((s.dropWhile Char.isWhitespace).reverse.dropWhile Char.isWhitespace).reverse

/-- Rust `str::split_whitespace().next().unwrap_or("")`: the first maximal
run of non-whitespace characters. -/
def first_word (s : Chars) : Chars :=
  (s.dropWhile Char.isWhitespace).takeWhile (fun c => !c.isWhitespace)

/-- Rust `str::contains(pat)` for a string pattern: substring containment. -/
def containsSubL (s pat : Chars) : Bool := decide (pat <:+: s)

/-- Rust `str::starts_with(pat)`. -/
def startsWithL (s pat : Chars) : Bool := pat.isPrefixOf s

/-- Rust `str::lines`: split on `'\n'`, strip one trailing `'\r'` per line,
and drop the final empty fragment produced by a trailing newline. -/
def linesL (s : Chars) : List Chars :=
  if s = [] then []
  else
    let parts := s.splitOn '\n'
    let parts := if parts.getLast? = some [] then parts.dropLast else parts
    parts.map (fun l => if l.getLast? = some '\r' then l.dropLast else l)

/-- Reserved keywords of `auto_wrap_procedure`
(src/src-tauri/src/db/query.rs). -/
def reserved_keywords : List Chars :=
  ["SELECT", "INSERT", "UPDATE", "DELETE", "CREATE", "ALTER", "DROP",
   "DECLARE", "SET", "IF", "BEGIN", "END", "WHILE", "FOR", "MERGE",
   "WITH", "UNION", "USE", "PRINT", "RETURN", "CAST", "CASE"].map String.toList

/-- Embedding of `auto_wrap_procedure` (src/src-tauri/src/db/query.rs):
wrap a bare procedure name with `EXEC`. -/
def auto_wrap_procedure (stmt : Chars) : Chars :=
  let trimmed := trimL stmt
  let trimmed_upper := toUpperL trimmed
  if startsWithL trimmed_upper "EXEC".toList || startsWithL trimmed_upper "EXECUTE".toList then
    stmt
  else if reserved_keywords.contains (toUpperL (first_word trimmed)) then
    stmt
  else
    let is_likely_procedure :=
      match trimmed with
      | [] => false
      | c :: _ => c.isAlpha || c == '_' || c == '['
    if is_likely_procedure then
      let has_parentheses := trimmed.contains '('
      if containsSubL trimmed_upper " WITH".toList ||
         containsSubL trimmed_upper " ORDER BY".toList ||
         containsSubL trimmed_upper " GROUP BY".toList ||
         containsSubL trimmed_upper " WHERE".toList ||
         containsSubL trimmed_upper " FROM".toList ||
         containsSubL trimmed_upper " JOIN".toList then
        stmt
      else if !has_parentheses || startsWithL trimmed_upper "SP_".toList ||
              startsWithL trimmed_upper "DBO.SP_".toList || trimmed_upper.contains '.' then
        "EXEC ".toList ++ trimmed
      else
        stmt
    else
      stmt

/-- Mutable state of the statement-splitting loop in `parse_sql_statements`. -/
structure SplitSt where
  stmts : List Chars
  cur : Chars
  inStr : Bool
  inCom : Bool
  inLine : Bool
  prev : Char
  deriving Repr, DecidableEq

/-- One character step of the splitting loop (string/comment tracking,
semicolon split), mirroring the `for ch in line.chars()` body. -/
def processChar (st : SplitSt) (c : Char) : SplitSt :=
  let inStr :=
    if c == '\'' && !(st.prev == '\\') && !st.inCom && !st.inLine then !st.inStr else st.inStr
  let (inCom, inLine) :=
    if !inStr then
      if c == '-' && st.prev == '-' && !st.inCom then (st.inCom, true)
      else if c == '*' && st.prev == '/' && !st.inLine then (true, st.inLine)
      else if c == '/' && st.prev == '*' && st.inCom then (false, st.inLine)
      else (st.inCom, st.inLine)
    else (st.inCom, st.inLine)
  if c == ';' && !inStr && !inCom && !inLine then
    let stmt := trimL (st.cur ++ [c])
    { stmts := if stmt ≠ [] ∧ stmt ≠ [';'] then st.stmts ++ [auto_wrap_procedure stmt] else st.stmts,
      cur := [], inStr := inStr, inCom := inCom, inLine := inLine, prev := c }
  else
    { stmts := st.stmts, cur := st.cur ++ [c],
      inStr := inStr, inCom := inCom, inLine := inLine, prev := c }

/-- One line of the splitting loop: the `GO` batch-separator check, then the
character loop, then the line-comment reset and newline append. -/
def processLine (st : SplitSt) (line : Chars) : SplitSt :=
  if !st.inStr && !st.inCom && !st.inLine && toLowerL (trimL line) = "go".toList then
    let stmt := trimL st.cur
    { st with stmts := if stmt ≠ [] then st.stmts ++ [stmt] else st.stmts, cur := [] }
  else
    let st' := line.foldl processChar st
    { st' with inLine := false, cur := st'.cur ++ ['\n'] }

/-- Embedding of `parse_sql_statements` (src/src-tauri/src/db/query.rs):
split SQL text into statements on `GO` lines and semicolons, keeping a
script that starts with `DECLARE`/`SET` as one batch. -/
def parse_sql_statements (sql : Chars) : List Chars :=
  let trimmed_sql := trimL sql
  let sql_upper := toUpperL trimmed_sql
  if startsWithL sql_upper "DECLARE".toList || startsWithL sql_upper "SET".toList then
    [auto_wrap_procedure trimmed_sql]
  else
    let stF := (linesL sql).foldl processLine
      { stmts := [], cur := [], inStr := false, inCom := false, inLine := false, prev := '\x00' }
    let final_stmt := trimL stF.cur
    let statements :=
      if final_stmt ≠ [] then stF.stmts ++ [auto_wrap_procedure final_stmt] else stF.stmts
    if statements = [] ∧ trimL sql ≠ [] then [auto_wrap_procedure (trimL sql)]
    else statements

lemma dropWhile_dropWhile (p : Char → Bool) (l : Chars) :
    (l.dropWhile p).dropWhile p = l.dropWhile p := by
  induction l with
  | nil => rfl
  | cons a l ih =>
    by_cases h : p a
    · simp [List.dropWhile_cons, h, ih]
    · simp [List.dropWhile_cons, h]

lemma head_false_of_dropWhile_eq_self {p : Char → Bool} {a : Char} {l : Chars}
    (h : List.dropWhile p (a :: l) = a :: l) : p a = false := by
  by_contra hpa
  rw [List.dropWhile_cons, if_pos (by revert hpa; cases p a <;> simp)] at h
  have := List.Sublist.length_le ((List.dropWhile_suffix (l := l) p).sublist)
  rw [h] at this
  simp at this

lemma dropWhile_eq_self_of_head_false {p : Char → Bool} {a : Char} {l : Chars}
    (h : p a = false) : List.dropWhile p (a :: l) = a :: l := by
  simp [List.dropWhile_cons, h]

/-- The front of a trimmed string is already stripped. -/
lemma trimL_dropWhile (s : Chars) :
    (trimL s).dropWhile Char.isWhitespace = trimL s := by
  unfold trimL
  set u := s.dropWhile Char.isWhitespace with hu
  set v := u.reverse.dropWhile Char.isWhitespace with hv
  have hsuf : v <:+ u.reverse := by rw [hv]; exact List.dropWhile_suffix _
  have hvp : v.reverse <+: u := by
    rw [← u.reverse_reverse]
    exact List.reverse_prefix.mpr hsuf
  rcases hvr : v.reverse with _ | ⟨b, t⟩
  · rfl
  · rw [hvr] at hvp
    rcases hvp with ⟨w, hw⟩
    have hufix : List.dropWhile Char.isWhitespace u = u := by
      rw [hu]; exact dropWhile_dropWhile _ s
    have hb : Char.isWhitespace b = false := by
      refine head_false_of_dropWhile_eq_self (l := t ++ w) ?_
      rw [← List.cons_append, hw]; exact hufix
    exact dropWhile_eq_self_of_head_false hb

/-- The back of a trimmed string is already stripped. -/
lemma trimL_reverse_dropWhile (s : Chars) :
    (trimL s).reverse.dropWhile Char.isWhitespace = (trimL s).reverse := by
  unfold trimL
  rw [List.reverse_reverse]
  exact dropWhile_dropWhile _ _

lemma trimL_trimL (s : Chars) : trimL (trimL s) = trimL s := by
  show ((((trimL s).dropWhile Char.isWhitespace).reverse).dropWhile Char.isWhitespace).reverse
      = trimL s
  rw [trimL_dropWhile, trimL_reverse_dropWhile, List.reverse_reverse]

/-- Appending a trimmed non-empty string to the literal "EXEC " is trimmed. -/
lemma trimL_exec_append {s : Chars} (h1 : trimL s = s) (h2 : s ≠ []) :
    trimL ("EXEC ".toList ++ s) = "EXEC ".toList ++ s := by
  have hb : s.reverse.dropWhile Char.isWhitespace = s.reverse := h1 ▸ trimL_reverse_dropWhile s
  unfold trimL
  have h3 : List.dropWhile Char.isWhitespace ("EXEC ".toList ++ s) = "EXEC ".toList ++ s := by
    show List.dropWhile Char.isWhitespace ('E' :: ("XEC ".toList ++ s)) = _
    exact dropWhile_eq_self_of_head_false (by decide)
  rw [h3, List.reverse_append]
  rcases hsr : s.reverse with _ | ⟨b, t⟩
  · exact absurd (by simpa using congrArg List.reverse hsr) h2
  · have hbf : Char.isWhitespace b = false :=
      head_false_of_dropWhile_eq_self (hsr ▸ hb)
    rw [List.cons_append, dropWhile_eq_self_of_head_false hbf, ← List.cons_append, ← hsr,
        List.reverse_append, List.reverse_reverse, List.reverse_reverse]

/-- `auto_wrap_procedure` either returns its input or prefixes the trimmed
input with "EXEC ". -/
lemma auto_wrap_procedure_cases (s : Chars) :
    auto_wrap_procedure s = s ∨ auto_wrap_procedure s = "EXEC ".toList ++ trimL s := by
  unfold auto_wrap_procedure
  dsimp only
  split_ifs <;> simp

/-- `auto_wrap_procedure` maps trimmed non-empty statements to trimmed
non-empty statements. -/
lemma auto_wrap_procedure_good {s : Chars} (h1 : trimL s = s) (h2 : s ≠ []) :
    trimL (auto_wrap_procedure s) = auto_wrap_procedure s ∧ auto_wrap_procedure s ≠ [] := by
  rcases auto_wrap_procedure_cases s with h | h <;> rw [h]
  · exact ⟨h1, h2⟩
  · rw [h1]
    exact ⟨trimL_exec_append h1 h2, by simp⟩

/-- Every statement in the list is trimmed and non-empty. -/
def goodStmts (l : List Chars) : Prop := ∀ s ∈ l, trimL s = s ∧ s ≠ []

lemma goodStmts_append {l : List Chars} {x : Chars} (hl : goodStmts l)
    (hx : trimL x = x) (hx2 : x ≠ []) : goodStmts (l ++ [x]) := by
  intro s hs
  rcases List.mem_append.mp hs with h | h
  · exact hl s h
  · rcases List.mem_singleton.mp h with rfl
    exact ⟨hx, hx2⟩

lemma processChar_stmts (st : SplitSt) (c : Char) :
    (processChar st c).stmts = st.stmts ∨
    ∃ x, trimL x = x ∧ x ≠ [] ∧
      (processChar st c).stmts = st.stmts ++ [auto_wrap_procedure x] := by
  unfold processChar
  dsimp only
  split_ifs <;>
    first
      | exact Or.inl rfl
      | (rename_i hg
         exact Or.inr ⟨trimL (st.cur ++ [c]), trimL_trimL _, hg.1, rfl⟩)

lemma processChar_good {st : SplitSt} (h : goodStmts st.stmts) (c : Char) :
    goodStmts (processChar st c).stmts := by
  rcases processChar_stmts st c with he | ⟨x, hx1, hx2, he⟩ <;> rw [he]
  · exact h
  · rcases auto_wrap_procedure_good hx1 hx2 with ⟨g1, g2⟩
    exact goodStmts_append h g1 g2

lemma foldl_processChar_good {st : SplitSt} (h : goodStmts st.stmts) (l : Chars) :
    goodStmts (l.foldl processChar st).stmts := by
  induction l generalizing st with
  | nil => exact h
  | cons a l ih => exact ih (processChar_good h a)

lemma processLine_stmts (st : SplitSt) (line : Chars) :
    (processLine st line).stmts = st.stmts ∨
    (∃ x, trimL x = x ∧ x ≠ [] ∧ (processLine st line).stmts = st.stmts ++ [x]) ∨
    (processLine st line).stmts = (line.foldl processChar st).stmts := by
  unfold processLine
  dsimp only
  split_ifs <;>
    first
      | exact Or.inr (Or.inr rfl)
      | exact Or.inl rfl
      | (rename_i hg
         exact Or.inr (Or.inl ⟨trimL st.cur, trimL_trimL _, hg, rfl⟩))

lemma processLine_good {st : SplitSt} (h : goodStmts st.stmts) (line : Chars) :
    goodStmts (processLine st line).stmts := by
  rcases processLine_stmts st line with he | ⟨x, hx1, hx2, he⟩ | he <;> rw [he]
  · exact h
  · exact goodStmts_append h hx1 hx2
  · exact foldl_processChar_good h line

lemma foldl_processLine_good {st : SplitSt} (h : goodStmts st.stmts) (ls : List Chars) :
    goodStmts (ls.foldl processLine st).stmts := by
  induction ls generalizing st with
  | nil => exact h
  | cons a ls ih => exact ih (processLine_good h a)

/-- Nonemptiness of the trimmed script follows from a DECLARE/SET prefix. -/
lemma trimL_ne_nil_of_startsWith {sql : Chars} {p : Chars}
    (hp : p ≠ []) (h : startsWithL (toUpperL (trimL sql)) p = true) : trimL sql ≠ [] := by
  intro hnil
  rw [hnil] at h
  rcases p with _ | ⟨a, l⟩
  · exact hp rfl
  · simp [startsWithL, toUpperL, List.isPrefixOf] at h

theorem parse_sql_statements_good (sql : Chars) : goodStmts (parse_sql_statements sql) := by
  have base := @foldl_processLine_good
    { stmts := [], cur := [], inStr := false, inCom := false, inLine := false,
      prev := '\x00' }
    (by intro s hs; cases hs) (linesL sql)
  have single : trimL sql ≠ [] → goodStmts [auto_wrap_procedure (trimL sql)] := by
    intro hne s hs
    rcases List.mem_singleton.mp hs with rfl
    exact auto_wrap_procedure_good (trimL_trimL sql) hne
  unfold parse_sql_statements
  dsimp only
  split_ifs with h1 h2 h3 h4
  · refine single ?_
    rcases (Bool.or_eq_true _ _).mp h1 with h | h
    · exact trimL_ne_nil_of_startsWith (by decide) h
    · exact trimL_ne_nil_of_startsWith (by decide) h
  · exact single h3.2
  · exact goodStmts_append base
      (auto_wrap_procedure_good (trimL_trimL _) h2).1
      (auto_wrap_procedure_good (trimL_trimL _) h2).2
  · exact single h4.2
  · exact base

lemma containsSubL_false_mono {s p q : Chars} (hpq : p <:+: q)
    (h : containsSubL s p = false) : containsSubL s q = false := by
  simp only [containsSubL, decide_eq_false_iff_not] at h ⊢
  exact fun hq => h (hpq.trans hq)

lemma startsWithL_exec_execute_false {l : Chars} {c : Char} (h1 : ('E' == c) = false) :
    startsWithL (c :: l) "EXEC".toList = false ∧
    startsWithL (c :: l) "EXECUTE".toList = false := by
  constructor
  · show List.isPrefixOf ('E' :: "XEC".toList) (c :: l) = false
    simp [List.isPrefixOf, h1]
  · show List.isPrefixOf ('E' :: "XECUTE".toList) (c :: l) = false
    simp [List.isPrefixOf, h1]

lemma first_word_prefix_decomp (s : Chars) :
    trimL s = first_word (trimL s) ++ (trimL s).dropWhile (fun c => !c.isWhitespace) := by
  unfold first_word
  rw [trimL_dropWhile]
  exact (List.takeWhile_append_dropWhile _ _).symm

lemma auto_wrap_procedure_reserved {s : Chars}
    (hres : reserved_keywords.contains (toUpperL (first_word (trimL s))) = true)
    (hexec : startsWithL (toUpperL (trimL s)) "EXEC".toList = false)
    (hexecute : startsWithL (toUpperL (trimL s)) "EXECUTE".toList = false) :
    auto_wrap_procedure s = s := by
  unfold auto_wrap_procedure
  dsimp only
  rw [hexec, hexecute]
  rw [if_neg (by simp), if_pos hres]

/-- C1: splitting `"SELECT 1;\nGO\nSELECT 2; SELECT 3;"` yields exactly the
three statements `"SELECT 1;"`, `"SELECT 2;"`, `"SELECT 3;"` in order; and in
general every statement produced by the splitter is trimmed and non-empty,
i.e. empty and whitespace-only statements are dropped. -/
theorem C1_parse_splits_on_go_and_semicolons :
    parse_sql_statements "SELECT 1;\nGO\nSELECT 2; SELECT 3;".toList =
      ["SELECT 1;".toList, "SELECT 2;".toList, "SELECT 3;".toList] ∧
    ∀ sql s, s ∈ parse_sql_statements sql → trimL s = s ∧ s ≠ [] :=
  ⟨by decide, fun sql s hs => parse_sql_statements_good sql s hs⟩

/-- C1 witness: the second clause evaluated at the concrete script and its
second statement. -/
theorem C1_parse_splits_on_go_and_semicolons_witness :
    "SELECT 2;".toList ∈ parse_sql_statements "SELECT 1;\nGO\nSELECT 2; SELECT 3;".toList ∧
    trimL "SELECT 2;".toList = "SELECT 2;".toList ∧ "SELECT 2;".toList ≠ [] :=
  ⟨by decide,
   (C1_parse_splits_on_go_and_semicolons.2 "SELECT 1;\nGO\nSELECT 2; SELECT 3;".toList
     "SELECT 2;".toList (by decide)).1,
   (C1_parse_splits_on_go_and_semicolons.2 "SELECT 1;\nGO\nSELECT 2; SELECT 3;".toList
     "SELECT 2;".toList (by decide)).2⟩

/-- C2 counterexample: the statement `"123abc"` satisfies every premise of the
claim (not prefixed with EXEC/EXECUTE, first word not a reserved keyword, no
WITH/ORDER BY/GROUP BY/WHERE/FROM/JOIN anywhere), yet `auto_wrap_procedure`
returns it unchanged instead of `"EXEC 123abc"`, because its first character
is not a letter, underscore or bracket. -/
theorem C2_auto_wrap_counterexample :
    startsWithL (toUpperL (trimL "123abc".toList)) "EXEC".toList = false ∧
    startsWithL (toUpperL (trimL "123abc".toList)) "EXECUTE".toList = false ∧
    reserved_keywords.contains (toUpperL (first_word (trimL "123abc".toList))) = false ∧
    containsSubL (toUpperL (trimL "123abc".toList)) "WITH".toList = false ∧
    containsSubL (toUpperL (trimL "123abc".toList)) "ORDER BY".toList = false ∧
    containsSubL (toUpperL (trimL "123abc".toList)) "GROUP BY".toList = false ∧
    containsSubL (toUpperL (trimL "123abc".toList)) "WHERE".toList = false ∧
    containsSubL (toUpperL (trimL "123abc".toList)) "FROM".toList = false ∧
    containsSubL (toUpperL (trimL "123abc".toList)) "JOIN".toList = false ∧
    auto_wrap_procedure "123abc".toList = "123abc".toList ∧
    auto_wrap_procedure "123abc".toList ≠ "EXEC ".toList ++ trimL "123abc".toList := by
  decide

/-- C2 (amended): a statement that is not EXEC/EXECUTE-prefixed, whose first
word is not a reserved keyword, that contains none of WITH/ORDER BY/GROUP
BY/WHERE/FROM/JOIN, whose trimmed form starts with a letter, underscore or
`[`, and that either has no parenthesis or starts with SP_ or DBO.SP_ or
contains a dot, is wrapped as `EXEC <trimmed statement>`; `"sp_who2"` becomes
`"EXEC sp_who2"` and `"SELECT * FROM dbo.sp_who2"` is returned unchanged. -/
theorem C2_auto_wrap_amended :
    (∀ s : Chars,
      startsWithL (toUpperL (trimL s)) "EXEC".toList = false →
      startsWithL (toUpperL (trimL s)) "EXECUTE".toList = false →
      reserved_keywords.contains (toUpperL (first_word (trimL s))) = false →
      containsSubL (toUpperL (trimL s)) "WITH".toList = false →
      containsSubL (toUpperL (trimL s)) "ORDER BY".toList = false →
      containsSubL (toUpperL (trimL s)) "GROUP BY".toList = false →
      containsSubL (toUpperL (trimL s)) "WHERE".toList = false →
      containsSubL (toUpperL (trimL s)) "FROM".toList = false →
      containsSubL (toUpperL (trimL s)) "JOIN".toList = false →
      (∃ c rest, trimL s = c :: rest ∧ (c.isAlpha || c == '_' || c == '[') = true) →
      ((trimL s).contains '(' = false ∨
        startsWithL (toUpperL (trimL s)) "SP_".toList = true ∨
        startsWithL (toUpperL (trimL s)) "DBO.SP_".toList = true ∨
        (toUpperL (trimL s)).contains '.' = true) →
      auto_wrap_procedure s = "EXEC ".toList ++ trimL s) ∧
    auto_wrap_procedure "sp_who2".toList = "EXEC sp_who2".toList ∧
    auto_wrap_procedure "SELECT * FROM dbo.sp_who2".toList =
      "SELECT * FROM dbo.sp_who2".toList := by
  refine ⟨?_, by decide, by decide⟩
  intro s h1 h2 h3 h4 h5 h6 h7 h8 h9 hlik hfin
  have hW : containsSubL (toUpperL (trimL s)) " WITH".toList = false :=
    containsSubL_false_mono (by decide) h4
  have hO : containsSubL (toUpperL (trimL s)) " ORDER BY".toList = false :=
    containsSubL_false_mono (by decide) h5
  have hG : containsSubL (toUpperL (trimL s)) " GROUP BY".toList = false :=
    containsSubL_false_mono (by decide) h6
  have hWh : containsSubL (toUpperL (trimL s)) " WHERE".toList = false :=
    containsSubL_false_mono (by decide) h7
  have hF : containsSubL (toUpperL (trimL s)) " FROM".toList = false :=
    containsSubL_false_mono (by decide) h8
  have hJ : containsSubL (toUpperL (trimL s)) " JOIN".toList = false :=
    containsSubL_false_mono (by decide) h9
  unfold auto_wrap_procedure
  dsimp only
  split_ifs with hA hB hC hD hE
  · rw [h1, h2] at hA
    simp at hA
  · rw [h3] at hB
    simp at hB
  · rw [hW, hO, hG, hWh, hF, hJ] at hD
    simp at hD
  · rfl
  · exfalso
    rcases hfin with h | h | h | h <;> rw [h] at hE <;> simp at hE
  · exfalso
    rcases hlik with ⟨c, rest, hcr, hc⟩
    rw [hcr] at hC
    exact hC hc

/-- C2 witness: the amended rule applied at the concrete input `"sp_who2"`. -/
theorem C2_auto_wrap_amended_witness :
    auto_wrap_procedure "sp_who2".toList = "EXEC ".toList ++ trimL "sp_who2".toList :=
  C2_auto_wrap_amended.1 "sp_who2".toList (by decide) (by decide) (by decide) (by decide)
    (by decide) (by decide) (by decide) (by decide) (by decide)
    ⟨'s', "p_who2".toList, by decide, by decide⟩ (Or.inl (by decide))

/-- C3: a script whose first non-whitespace token is DECLARE or SET (case-
insensitively) is kept as a single statement equal to the entire trimmed
script, regardless of GO lines or semicolons inside it. -/
theorem C3_parse_declare_set_single_batch (sql : Chars)
    (h : toUpperL (first_word (trimL sql)) = "DECLARE".toList ∨
         toUpperL (first_word (trimL sql)) = "SET".toList) :
    parse_sql_statements sql = [trimL sql] := by
  obtain ⟨R, hupR⟩ : ∃ R, toUpperL (trimL sql) = toUpperL (first_word (trimL sql)) ++ R := by
    refine ⟨toUpperL ((trimL sql).dropWhile (fun c => !c.isWhitespace)), ?_⟩
    conv_lhs => rw [first_word_prefix_decomp sql]
    simp [toUpperL]
  rcases h with h | h
  · have hshape : toUpperL (trimL sql) = 'D' :: ("ECLARE".toList ++ R) := by
      rw [hupR, h]; rfl
    have hex := startsWithL_exec_execute_false (l := "ECLARE".toList ++ R) (c := 'D')
      (by decide)
    rw [← hshape] at hex
    have hpre : startsWithL (toUpperL (trimL sql)) "DECLARE".toList = true := by
      apply List.isPrefixOf_iff_prefix.mpr
      rw [hupR, h]
      exact List.prefix_append _ _
    have hres : reserved_keywords.contains (toUpperL (first_word (trimL (trimL sql)))) = true := by
      rw [trimL_trimL, h]; decide
    have hex1 : startsWithL (toUpperL (trimL (trimL sql))) "EXEC".toList = false := by
      rw [trimL_trimL]; exact hex.1
    have hex2 : startsWithL (toUpperL (trimL (trimL sql))) "EXECUTE".toList = false := by
      rw [trimL_trimL]; exact hex.2
    unfold parse_sql_statements
    dsimp only
    simp only [hpre, Bool.true_or, if_true]
    rw [auto_wrap_procedure_reserved hres hex1 hex2]
  · have hshape : toUpperL (trimL sql) = 'S' :: ("ET".toList ++ R) := by
      rw [hupR, h]; rfl
    have hex := startsWithL_exec_execute_false (l := "ET".toList ++ R) (c := 'S')
      (by decide)
    rw [← hshape] at hex
    have hpre : startsWithL (toUpperL (trimL sql)) "SET".toList = true := by
      apply List.isPrefixOf_iff_prefix.mpr
      rw [hupR, h]
      exact List.prefix_append _ _
    have hres : reserved_keywords.contains (toUpperL (first_word (trimL (trimL sql)))) = true := by
      rw [trimL_trimL, h]; decide
    have hex1 : startsWithL (toUpperL (trimL (trimL sql))) "EXEC".toList = false := by
      rw [trimL_trimL]; exact hex.1
    have hex2 : startsWithL (toUpperL (trimL (trimL sql))) "EXECUTE".toList = false := by
      rw [trimL_trimL]; exact hex.2
    unfold parse_sql_statements
    dsimp only
    simp only [hpre, Bool.or_true, if_true]
    rw [auto_wrap_procedure_reserved hres hex1 hex2]

/-- C3 witness: the DECLARE example from the specification. -/
theorem C3_parse_declare_set_single_batch_witness :
    parse_sql_statements "DECLARE @x INT = 5;\nSELECT @x;".toList =
      ["DECLARE @x INT = 5;\nSELECT @x;".toList] := by
  have h := C3_parse_declare_set_single_batch "DECLARE @x INT = 5;\nSELECT @x;".toList
    (Or.inl (by decide))
  rw [h]
  decide

/-- Abstraction of a Rust `f64` by the observations the exporter and cell
conversion make of it: `fract() == 0.0`, `to_string()`, and the fixed
one-decimal rendering. Floating-point arithmetic itself is outside the
embedding. -/
structure FloatVal where
  fracZero : Bool
  str : Chars
  strFixed1 : Chars
  deriving Repr, DecidableEq

/-- Embedding of `CellValue` (src/src-tauri/src/db/query.rs). -/
inductive CellValue where
  | Null
  | Bool (b : Bool)
  | Int (i : Int)
  | Float (f : FloatVal)
  | String (s : Chars)
  | DateTime (s : Chars)
  | Binary (bytes : List Nat)
  deriving Repr, DecidableEq

/-- Embedding of `ColumnInfo` (src/src-tauri/src/db/query.rs). -/
structure ColumnInfo where
  name : Chars
  data_type : Chars
  nullable : Bool
  deriving Repr, DecidableEq

/-- Embedding of `ExportOptions` (src/src-tauri/src/export/mod.rs). -/
structure ExportOptions where
  include_headers : Bool
  pretty_print : Bool
  delimiter : Option Chars
  quote_char : Option Chars
  null_as_string : Bool
  max_rows : Option Nat
  deriving Repr, DecidableEq

/-- `ExportOptions::default()` from src/src-tauri/src/export/mod.rs. -/
def ExportOptions.default_options : ExportOptions :=
  { include_headers := true, pretty_print := false, delimiter := some ",".toList,
    quote_char := some "\"".toList, null_as_string := true, max_rows := none }

/-- `CsvExporter::get_delimiter`. -/
def get_delimiter (opts : ExportOptions) : Char :=
  (opts.delimiter.bind List.head?).getD ','

/-- `CsvExporter::get_quote_char`. -/
def get_quote_char (opts : ExportOptions) : Char :=
  (opts.quote_char.bind List.head?).getD '"'

/-- `CsvExporter::escape_csv_field` (src/src-tauri/src/export/csv.rs). -/
def escape_csv_field (value : Chars) (delimiter quote : Char) : Chars :=
  let needs_quoting := value.contains delimiter || value.contains quote ||
    value.contains '\n' || value.contains '\r'
  if needs_quoting then
    quote :: (value.flatMap (fun c => if c == quote then [quote, quote] else [c])) ++ [quote]
  else value

/-- Rust `{:02X}` of one byte. -/
def hexByte (b : Nat) : Chars :=
  let digit := fun (n : Nat) =>
    if n < 10 then Char.ofNat ('0'.toNat + n) else Char.ofNat ('A'.toNat + (n - 10))
  [digit (b / 16 % 16), digit (b % 16)]

/-- `CsvExporter::format_cell_value` (src/src-tauri/src/export/csv.rs). -/
def format_cell_value (opts : ExportOptions) (value : CellValue)
    (delimiter quote : Char) : Chars :=
  match value with
  | .Null => if opts.null_as_string then "NULL".toList else []
  | .Bool b => if b then "true".toList else "false".toList
  | .Int i => (toString i).toList
  | .Float f => if f.fracZero then f.strFixed1 else f.str
  | .String s => escape_csv_field s delimiter quote
  | .DateTime dt => escape_csv_field dt delimiter quote
  | .Binary bytes =>
    let hex := (bytes.take 100).flatMap hexByte
    if bytes.length > 100 then "0x".toList ++ hex ++ "...".toList
    else "0x".toList ++ hex

/-- `CsvExporter::write_row` (src/src-tauri/src/export/csv.rs): fields joined
by the delimiter, terminated by a newline. -/
def write_row (opts : ExportOptions) (row : List CellValue) : Chars :=
  let d := get_delimiter opts
  let q := get_quote_char opts
  List.intercalate [d] (row.map (fun c => format_cell_value opts c d q)) ++ ['\n']

lemma length_le_length_doubleQuote (s : Chars) (q : Char) :
    s.length ≤ (s.flatMap (fun c => if c == q then [q, q] else [c])).length := by
  induction s with
  | nil => simp
  | cons a t ih =>
    simp only [List.flatMap_cons, List.length_append, List.length_cons]
    have h1 : 1 ≤ (if (a == q) = true then [q, q] else [a]).length := by
      split_ifs <;> simp
    omega

/-- C9 counterexample: with delimiter "2", the integer cell 22 renders as the
field "22", which contains the delimiter yet is emitted without any quote:
quoting applies only to String/DateTime fields, not to numeric renderings. -/
theorem C9_csv_counterexample :
    write_row { ExportOptions.default_options with
                  delimiter := some "2".toList }
      [CellValue.Int 22] = "22\n".toList ∧
    ("22".toList).contains '2' = true ∧
    ("22\n".toList).contains '"' = false := by decide

/-- C9 (amended): the two concrete rows render exactly as claimed; a String or
DateTime field passes through escape_csv_field, which changes the field
exactly when it contains the delimiter, the quote, CR or LF, and then wraps
it in quotes with every quote character doubled. Null/Bool/Int/Float/Binary
renderings are emitted verbatim and are never quoted. -/
theorem C9_csv_escaping_amended :
    write_row ExportOptions.default_options
        [CellValue.Int 2, CellValue.String "Bob, Jr.".toList, CellValue.Null] =
      "2,\"Bob, Jr.\",NULL\n".toList ∧
    write_row { ExportOptions.default_options with
                  include_headers := false,
                  delimiter := some ";".toList }
        [CellValue.Int 2, CellValue.String "Bob, Jr.".toList, CellValue.Null] =
      "2;Bob, Jr.;NULL\n".toList ∧
    (∀ s d q, escape_csv_field s d q ≠ s ↔
      (s.contains d || s.contains q || s.contains '\n' || s.contains '\r') = true) ∧
    (∀ s d q, (s.contains d || s.contains q || s.contains '\n' || s.contains '\r') = true →
      escape_csv_field s d q =
        q :: (s.flatMap (fun c => if c == q then [q, q] else [c])) ++ [q]) := by
  refine ⟨by decide, by decide, ?_, ?_⟩
  · intro s d q
    unfold escape_csv_field
    dsimp only
    split_ifs with h
    · simp only [h, iff_true]
      intro heq
      have hlen := congrArg List.length heq
      have hge := length_le_length_doubleQuote s q
      simp only [List.length_cons, List.length_append] at hlen
      omega
    · constructor
      · intro hn
        exact absurd rfl hn
      · intro hc
        exact absurd hc h
  · intro s d q h
    unfold escape_csv_field
    dsimp only
    rw [if_pos h]

/-- C9 witness: the quoting rule applied at a field containing the default
delimiter. -/
theorem C9_csv_escaping_amended_witness :
    escape_csv_field "a,b".toList ',' '"' = "\"a,b\"".toList :=
  (C9_csv_escaping_amended.2.2.2 "a,b".toList ',' '"' (by decide)).trans (by decide)

/-- Embedding of `Space` (src/src-tauri/src/storage/spaces.rs). The record
has no dialect field. -/
structure Space where
  id : String
  name : String
  color : Option String
  icon : Option String
  connection_host : Option String
  connection_port : Option Int
  connection_database : Option String
  connection_username : Option String
  connection_password : Option String
  connection_trust_cert : Bool
  connection_encrypt : Bool
  last_active_tab_id : Option String
  created_at : String
  updated_at : String
  sort_order : Int
  deriving Repr, DecidableEq

/-- `Space::has_connection` (src/src-tauri/src/storage/spaces.rs). -/
def Space.has_connection (s : Space) : Bool :=
  s.connection_host.isSome && s.connection_database.isSome

/-- A space holding only a database file path, as a SQLite binding would be
stored (no host). -/
def sqlite_file_space : Space :=
  { id := "space-1", name := "Local SQLite", color := none, icon := none,
    connection_host := none, connection_port := none,
    connection_database := some "/home/user/data/app.db",
    connection_username := none, connection_password := none,
    connection_trust_cert := true, connection_encrypt := false,
    last_active_tab_id := none, created_at := "2024-01-01", updated_at := "2024-01-01",
    sort_order := 0 }

/-- C8 counterexample: a space whose database field is set but whose host is
absent (the only form a file-dialect connection can take, since the Space
record stores no dialect) reports has_connection = false, refuting the claim
that for file dialects the database field alone suffices. -/
theorem C8_has_connection_counterexample :
    sqlite_file_space.connection_database.isSome = true ∧
    sqlite_file_space.connection_host = none ∧
    sqlite_file_space.has_connection = false := by decide

/-- C8 (amended): has_connection reports true iff both the connection host
and the connection database are set; the Space record carries no dialect, so
no file-dialect exception exists. -/
theorem C8_has_connection_amended (s : Space) :
    s.has_connection = true ↔
      (s.connection_host.isSome = true ∧ s.connection_database.isSome = true) := by
  simp [Space.has_connection]

/-- One row of the `pinned_tabs` table as stored (`tab_type` kept as its raw
string, as in the database). -/
structure TabRow where
  id : String
  space_id : String
  title : String
  tab_type : String
  content : Option String
  metadata : Option String
  database : Option String
  folder_id : Option String
  is_pinned : Bool
  created_at : String
  updated_at : String
  last_accessed_at : Option String
  sort_order : Int
  deriving Repr, DecidableEq

/-- One row of the `spaces` table, restricted to the columns the archive and
folder paths consult. -/
structure SpaceRow where
  id : String
  name : String
  deriving Repr, DecidableEq

/-- One row of the `tab_folders` table. -/
structure TabFolderRow where
  id : String
  space_id : String
  name : String
  is_expanded : Bool
  sort_order : Int
  created_at : String
  updated_at : String
  deriving Repr, DecidableEq

/-- One row of the `archived_tabs` table. -/
structure ArchivedTabRow where
  id : String
  original_tab_id : String
  space_id : Option String
  space_name : String
  title : String
  tab_type : String
  content : Option String
  metadata : Option String
  database : Option String
  was_pinned : Bool
  created_at : String
  updated_at : String
  last_accessed_at : String
  archived_at : String
  deriving Repr, DecidableEq

/-- The embedded single-file store as a record of table rows. -/
structure Store where
  spaces : List SpaceRow
  tabs : List TabRow
  folders : List TabFolderRow
  archived : List ArchivedTabRow
  deriving Repr, DecidableEq

/-- The archived row built by `DatabaseManager::archive_tab`
(src/src-tauri/src/storage/history.rs): fields copied from the tab,
`last_accessed_at` coalesced to `created_at`, space name captured (or
"Unknown Space"), fresh id and `archived_at = now`. -/
def mk_archived_row (st : Store) (tab : TabRow) (fresh_id now : String) : ArchivedTabRow :=
  { id := fresh_id, original_tab_id := tab.id, space_id := some tab.space_id,
    space_name := ((st.spaces.find? (fun s => s.id == tab.space_id)).map
      SpaceRow.name).getD "Unknown Space",
    title := tab.title, tab_type := tab.tab_type, content := tab.content,
    metadata := tab.metadata, database := tab.database, was_pinned := tab.is_pinned,
    created_at := tab.created_at, updated_at := tab.updated_at,
    last_accessed_at := tab.last_accessed_at.getD tab.created_at,
    archived_at := now }

/-- `DatabaseManager::archive_tab`: in one transaction, read the tab, insert
the archived copy, delete the original. `none` models the query error when
the tab does not exist. -/
def archive_tab (st : Store) (tab_id fresh_id now : String) :
    Option (ArchivedTabRow × Store) :=
  match st.tabs.find? (fun t => t.id == tab_id) with
  | none => none
  | some tab =>
    let arow := mk_archived_row st tab fresh_id now
    some (arow, { st with tabs := st.tabs.filter (fun t => !(t.id == tab_id)),
                          archived := st.archived ++ [arow] })

/-- The tab built by `DatabaseManager::restore_archived_tab`: fresh id,
target space, `sort_order = COALESCE(MAX(sort_order), 0) + 1` over the target
space, `last_accessed_at = updated_at = now`, `was_pinned` restored. -/
def mk_restored_tab (st : Store) (a : ArchivedTabRow)
    (target_space_id fresh_id now : String) : TabRow :=
  { id := fresh_id, space_id := target_space_id, title := a.title,
    tab_type := a.tab_type, content := a.content, metadata := a.metadata,
    database := a.database, folder_id := none, is_pinned := a.was_pinned,
    created_at := a.created_at, updated_at := now, last_accessed_at := some now,
    sort_order := (((st.tabs.filter (fun t => t.space_id == target_space_id)).map
      TabRow.sort_order).max?).getD 0 + 1 }

/-- `DatabaseManager::restore_archived_tab`: in one transaction, read the
archived row, insert the rebuilt tab, delete the archived row. -/
def restore_archived_tab (st : Store) (archived_id target_space_id fresh_id now : String) :
    Option (TabRow × Store) :=
  match st.archived.find? (fun a => a.id == archived_id) with
  | none => none
  | some a =>
    let new_tab := mk_restored_tab st a target_space_id fresh_id now
    some (new_tab, { st with tabs := st.tabs ++ [new_tab],
                             archived := st.archived.filter (fun x => !(x.id == archived_id)) })

lemma archive_tab_eq {st : Store} {tab : TabRow} {tab_id fresh_id now : String}
    (htab : st.tabs.find? (fun t => t.id == tab_id) = some tab) :
    archive_tab st tab_id fresh_id now =
      some (mk_archived_row st tab fresh_id now,
        { st with tabs := st.tabs.filter (fun t => !(t.id == tab_id)),
                  archived := st.archived ++ [mk_archived_row st tab fresh_id now] }) := by
  unfold archive_tab
  rw [htab]

lemma restore_archived_tab_eq {st : Store} {a : ArchivedTabRow}
    {archived_id target_space_id fresh_id now : String}
    (hfind : st.archived.find? (fun x => x.id == archived_id) = some a) :
    restore_archived_tab st archived_id target_space_id fresh_id now =
      some (mk_restored_tab st a target_space_id fresh_id now,
        { st with tabs := st.tabs ++ [mk_restored_tab st a target_space_id fresh_id now],
                  archived := st.archived.filter (fun x => !(x.id == archived_id)) }) := by
  unfold restore_archived_tab
  rw [hfind]

/-- C5: archiving a tab and restoring the produced archive row back into the
unchanged space yields a tab whose (title, tab_type, content, metadata,
database, pinned flag) equal the original's, whose id differs (fresh ids are
distinct), whose sort_order is max(existing in target space)+1, and the
archive row is deleted, leaving the archive table as before. -/
theorem C5_archive_restore_roundtrip
    (st : Store) (tab : TabRow) (tab_id archived_id now1 restored_id now2 : String)
    (htab : st.tabs.find? (fun t => t.id == tab_id) = some tab)
    (hfresh : ∀ a ∈ st.archived, a.id ≠ archived_id)
    (hrid : restored_id ≠ tab.id) :
    ∃ arow st1 rtab st2,
      archive_tab st tab_id archived_id now1 = some (arow, st1) ∧
      restore_archived_tab st1 archived_id tab.space_id restored_id now2 =
        some (rtab, st2) ∧
      rtab.title = tab.title ∧ rtab.tab_type = tab.tab_type ∧
      rtab.content = tab.content ∧ rtab.metadata = tab.metadata ∧
      rtab.database = tab.database ∧ rtab.is_pinned = tab.is_pinned ∧
      rtab.id ≠ tab.id ∧
      rtab.sort_order =
        (((st1.tabs.filter (fun t => t.space_id == tab.space_id)).map
          TabRow.sort_order).max?).getD 0 + 1 ∧
      st2.archived = st.archived := by
  have hfind : (st.archived ++ [mk_archived_row st tab archived_id now1]).find?
      (fun a => a.id == archived_id) = some (mk_archived_row st tab archived_id now1) := by
    rw [List.find?_append]
    have h1 : st.archived.find? (fun a => a.id == archived_id) = none := by
      rw [List.find?_eq_none]
      intro a ha
      simp only [beq_iff_eq]
      exact hfresh a ha
    rw [h1]
    simp [List.find?, mk_archived_row]
  refine ⟨_, _, _, _, archive_tab_eq htab, restore_archived_tab_eq hfind,
    rfl, rfl, rfl, rfl, rfl, rfl, hrid, rfl, ?_⟩
  show (st.archived ++ [mk_archived_row st tab archived_id now1]).filter
      (fun x => !(x.id == archived_id)) = st.archived
  rw [List.filter_append]
  have h2 : st.archived.filter (fun x => !(x.id == archived_id)) = st.archived := by
    rw [List.filter_eq_self]
    intro a ha
    simp only [Bool.not_eq_true', beq_eq_false_iff_ne, ne_eq]
    exact hfresh a ha
  have h3 : [mk_archived_row st tab archived_id now1].filter
      (fun x => !(x.id == archived_id)) = [] := by
    simp [List.filter, mk_archived_row]
  rw [h2, h3, List.append_nil]

/-- A one-space, one-tab store for evaluating the round-trip concretely. -/
def c5_tab : TabRow :=
  { id := "t1", space_id := "s1", title := "Query 1", tab_type := "query",
    content := some "SELECT 1", metadata := none, database := some "master",
    folder_id := none, is_pinned := true, created_at := "2024-01-01",
    updated_at := "2024-01-02", last_accessed_at := none, sort_order := 0 }

def c5_store : Store :=
  { spaces := [{ id := "s1", name := "Main" }], tabs := [c5_tab], folders := [],
    archived := [] }

/-- C5 witness: the round-trip theorem applied to the concrete store. -/
theorem C5_archive_restore_roundtrip_witness :
    ∃ arow st1 rtab st2,
      archive_tab c5_store "t1" "a1" "2024-02-01" = some (arow, st1) ∧
      restore_archived_tab st1 "a1" c5_tab.space_id "t2" "2024-02-02" =
        some (rtab, st2) ∧
      rtab.title = c5_tab.title ∧ rtab.tab_type = c5_tab.tab_type ∧
      rtab.content = c5_tab.content ∧ rtab.metadata = c5_tab.metadata ∧
      rtab.database = c5_tab.database ∧ rtab.is_pinned = c5_tab.is_pinned ∧
      rtab.id ≠ c5_tab.id ∧
      rtab.sort_order =
        (((st1.tabs.filter (fun t => t.space_id == c5_tab.space_id)).map
          TabRow.sort_order).max?).getD 0 + 1 ∧
      st2.archived = c5_store.archived :=
  C5_archive_restore_roundtrip c5_store c5_tab "t1" "a1" "2024-02-01" "t2" "2024-02-02"
    (by decide) (by intro a ha; cases ha) (by decide)

/-- One hit of the archive search (`ArchiveSearchResult`,
src/src-tauri/src/storage/history.rs). -/
structure ArchiveSearchResult where
  archived_tab : ArchivedTabRow
  rank : FloatVal
  snippet_title : Option String
  snippet_content : Option String
  deriving Repr, DecidableEq

/-- The literal `0.0` rank used by the LIKE fallback. -/
def float_zero : FloatVal :=
  { fracZero := true, str := "0".toList, strFixed1 := "0.0".toList }

/-- The FTS5 query sanitiser of `search_archived_tabs_fts`: per whitespace-
separated word, keep alphanumerics and underscores, drop empty words, quote
the reserved operators AND/OR/NOT/NEAR, append `*` to the rest, join with
spaces. -/
def sanitize_fts_query (query : Chars) : Chars :=
  let words := (List.splitOnP (fun c => c.isWhitespace) query).filter (fun w => w ≠ [])
  let terms := words.filterMap (fun word =>
    let sanitized := word.filter (fun c => c.isAlphanum || c == '_')
    if sanitized = [] then none
    else
      let upper := toUpperL sanitized
      if upper = "AND".toList ∨ upper = "OR".toList ∨ upper = "NOT".toList ∨
         upper = "NEAR".toList then
        some ('"' :: sanitized ++ ['"'])
      else
        some (sanitized ++ ['*']))
  List.intercalate " ".toList terms

/-- SQL `column LIKE '%pat%' COLLATE NOCASE` where `pat` has no wildcard
characters left: ASCII-case-insensitive substring match; a NULL column never
matches. -/
def like_nocase (column : Option String) (pat : Chars) : Bool :=
  match column with
  | none => false
  | some s => containsSubL (toUpperL s.toList) (toUpperL pat)

/-- `search_archived_tabs_like` (src/src-tauri/src/storage/history.rs): strip
`%` and `_` from the query, match title or content case-insensitively, order
by `archived_at` descending, cap at `limit`, rank 0 and verbatim snippets. -/
def search_archived_tabs_like (rows : List ArchivedTabRow) (query : Chars)
    (space_id : Option String) (limit : Nat) : List ArchiveSearchResult :=
  let like_pattern := query.filter (fun c => !(c == '%' || c == '_'))
  let matched := rows.filter (fun a =>
    (match space_id with
     | some sid => a.space_id == some sid
     | none => true) &&
    (like_nocase (some a.title) like_pattern || like_nocase a.content like_pattern))
  let ordered := matched.mergeSort (fun a b => decide (b.archived_at ≤ a.archived_at))
  (ordered.take limit).map (fun a =>
    { archived_tab := a, rank := float_zero, snippet_title := some a.title,
      snippet_content := a.content })

/-- `search_archived_tabs_fts`: sanitise the query; an empty sanitised query
returns no rows; otherwise the FTS5 engine runs the MATCH query. The engine
is an oracle covering every possible behaviour, including errors (corrupted
index, syntax errors). -/
def search_archived_tabs_fts
    (fts_engine : Chars → Option String → Nat → Except String (List ArchiveSearchResult))
    (query : Chars) (space_id : Option String) (limit : Nat) :
    Except String (List ArchiveSearchResult) :=
  let search_query := sanitize_fts_query query
  if search_query = [] then .ok []
  else fts_engine search_query space_id limit

/-- `DatabaseManager::search_archived_tabs`: default limit 50, empty trimmed
query returns no rows, FTS first, LIKE fallback on any FTS error. -/
def search_archived_tabs
    (fts_engine : Chars → Option String → Nat → Except String (List ArchiveSearchResult))
    (rows : List ArchivedTabRow) (query : Chars) (space_id : Option String)
    (limit : Option Nat) : Except String (List ArchiveSearchResult) :=
  let lim := limit.getD 50
  let query_trimmed := trimL query
  if query_trimmed = [] then .ok []
  else
    match search_archived_tabs_fts fts_engine query_trimmed space_id lim with
    | .ok results => .ok results
    | .error _ => .ok (search_archived_tabs_like rows query_trimmed space_id lim)

/-- C6: for every archive table, search input (including FTS special
characters and reserved operators), space filter, limit, and FTS engine
behaviour — errors included — search_archived_tabs returns Ok: an empty
list, the FTS results, or the LIKE fallback results. It never surfaces an
error to the caller. -/
theorem C6_search_archived_tabs_never_errors
    (fts_engine : Chars → Option String → Nat → Except String (List ArchiveSearchResult))
    (rows : List ArchivedTabRow) (query : Chars) (space_id : Option String)
    (limit : Option Nat) :
    search_archived_tabs fts_engine rows query space_id limit = .ok [] ∨
    (∃ r, fts_engine (sanitize_fts_query (trimL query)) space_id (limit.getD 50) = .ok r ∧
      search_archived_tabs fts_engine rows query space_id limit = .ok r) ∨
    search_archived_tabs fts_engine rows query space_id limit =
      .ok (search_archived_tabs_like rows (trimL query) space_id (limit.getD 50)) := by
  unfold search_archived_tabs search_archived_tabs_fts
  dsimp only
  split_ifs with h1 h2
  · exact Or.inl rfl
  · exact Or.inl rfl
  · cases hE : fts_engine (sanitize_fts_query (trimL query)) space_id (limit.getD 50) with
    | ok r => exact Or.inr (Or.inl ⟨r, rfl, rfl⟩)
    | error e => exact Or.inr (Or.inr rfl)

/-- `DatabaseManager::create_folder` (src/src-tauri/src/storage/folders.rs):
`sort_order = COALESCE(MIN(sort_order), 1) - 1` within the space, initially
expanded; the insert commits on its own. -/
def create_folder (st : Store) (space_id name fresh_id now : String) :
    TabFolderRow × Store :=
  let min_order := (((st.folders.filter (fun f => f.space_id == space_id)).map
    TabFolderRow.sort_order).min?).getD 1
  let folder : TabFolderRow :=
    { id := fresh_id, space_id := space_id, name := name, is_expanded := true,
      sort_order := min_order - 1, created_at := now, updated_at := now }
  (folder, { st with folders := st.folders ++ [folder] })

/-- `DatabaseManager::add_tab_to_folder`: no-op `false` when the folder does
not exist; otherwise set folder_id, force is_pinned, touch updated_at; the
boolean reports whether a row was affected. -/
def add_tab_to_folder (st : Store) (tab_id folder_id now : String) : Bool × Store :=
  match st.folders.find? (fun f => f.id == folder_id) with
  | none => (false, st)
  | some _ =>
    let new_tabs := st.tabs.map (fun t =>
      if t.id == tab_id then
        { t with folder_id := some folder_id, is_pinned := true, updated_at := now }
      else t)
    (st.tabs.any (fun t => t.id == tab_id), { st with tabs := new_tabs })

/-- The `for tab_id in tab_ids` loop of `create_folder_from_tabs`. `fail k`
says the k-th database operation of the call raises an error (any rusqlite
error); each iteration commits before the next, and an error aborts the loop
leaving all earlier commits in place (the returned-bool of each add is
ignored by the source, so a missing tab is not an error). -/
def add_tabs_loop (fail : Nat → Bool) (folder_id now : String) :
    Nat → Store → List String → Except Unit Unit × Store
  | _, st, [] => (.ok (), st)
  | k, st, tab_id :: rest =>
    if fail k then (.error (), st)
    else
      let r := add_tab_to_folder st tab_id folder_id now
      add_tabs_loop fail folder_id now (k + 1) r.2 rest

/-- `DatabaseManager::create_folder_from_tabs`: create the folder (operation
0), then add each tab (operations 1..). There is no surrounding transaction:
the folder insert and every tab update commit separately, and an error is
propagated without undoing earlier commits. -/
def create_folder_from_tabs (fail : Nat → Bool) (st : Store)
    (space_id name fresh_id now : String) (tab_ids : List String) :
    Except Unit TabFolderRow × Store :=
  if fail 0 then (.error (), st)
  else
    let r := create_folder st space_id name fresh_id now
    let l := add_tabs_loop fail r.1.id now 1 r.2 tab_ids
    match l.1 with
    | .ok _ => (.ok r.1, l.2)
    | .error _ => (.error (), l.2)

/-- A one-space, one-tab store for the folder-atomicity evaluation. -/
def c7_store : Store :=
  { spaces := [{ id := "s1", name := "Main" }],
    tabs := [{ id := "t1", space_id := "s1", title := "Query 1",
               tab_type := "query", content := none, metadata := none,
               database := none, folder_id := none, is_pinned := false,
               created_at := "c", updated_at := "u", last_accessed_at := none,
               sort_order := 0 }],
    folders := [], archived := [] }

/-- The tab-update in operation 1 raises a database error. -/
def c7_fail : Nat → Bool := fun k => k == 1

/-- C7: evaluating `create_folder_from_tabs` on a store with one tab, where
the single tab update fails with a database error, returns the error yet
leaves the newly created folder committed in the store: the operation is not
atomic, contradicting its own documentation and the claim. -/
theorem C7_create_folder_from_tabs_not_atomic :
    (create_folder_from_tabs c7_fail c7_store "s1" "F" "f1" "n1" ["t1"]).1 =
      .error () ∧
    ((create_folder_from_tabs c7_fail c7_store "s1" "F" "f1" "n1" ["t1"]).2.folders.map
      TabFolderRow.id) = ["f1"] ∧
    (create_folder_from_tabs c7_fail c7_store "s1" "F" "f1" "n1" ["t1"]).2 ≠ c7_store :=
  ⟨rfl, rfl, by decide⟩

/-- The tiberius `ColumnType` variants matched by `CellValue::from_row`. -/
inductive ColumnType where
  | Null | Bit | Int1 | Int2 | Int4 | Int8 | Datetime4 | Float4 | Float8
  | Money | Datetime | Money4 | Guid | Intn | Bitn | Decimaln | Numericn
  | Floatn | Datetimen | Daten | Timen | Datetime2 | DatetimeOffsetn
  | BigVarBin | BigVarChar | BigBinary | BigChar | NVarchar | NChar | Xml
  | Udt | Text | Image | NText | SSVariant
  deriving Repr, DecidableEq

/-- A SQL Server result row at its column indices, abstracted by its typed
getters. Each getter models `row.try_get::<T, _>(idx).ok().flatten()`: the
source collapses a getter error and SQL NULL both into `None`, so the oracle
returns an `Option` per type, covering every server behaviour. Conversions
the source composes directly onto a getter (`as i64` widenings, `f64::from`
on Numeric, `to_string` on dates and GUIDs, `into_string` on XML) are folded
into the oracle's returned value. -/
structure RowData where
  getStr : Nat → Option Chars
  getI32 : Nat → Option Int
  getBool : Nat → Option Bool
  getU8 : Nat → Option Int
  getI16 : Nat → Option Int
  getI64 : Nat → Option Int
  getF32 : Nat → Option FloatVal
  getF64 : Nat → Option FloatVal
  getNumeric : Nat → Option FloatVal
  getDateTime : Nat → Option Chars
  getDateTimeUtc : Nat → Option Chars
  getDate : Nat → Option Chars
  getTime : Nat → Option Chars
  getBytes : Nat → Option (List Nat)
  getUuid : Nat → Option Chars
  getXml : Nat → Option Chars

/-- Embedding of `CellValue::from_row` (src/src-tauri/src/db/query.rs):
per-type getter with Null default, integer/float fallback chains for
Intn/Floatn, strings/dates/binary/GUID/XML branches, and a final
try-as-string default. -/
def CellValue.from_row (row : RowData) (idx : Nat) (col_type : ColumnType) : CellValue :=
  if (row.getStr idx).isNone && (row.getI32 idx).isNone && (row.getBool idx).isNone &&
     (match col_type with | .Null => true | _ => false) then
    CellValue.Null
  else
    match col_type with
    | .Null => .Null
    | .Int1 => match row.getU8 idx with | some v => .Int v | none => .Null
    | .Int2 => match row.getI16 idx with | some v => .Int v | none => .Null
    | .Int4 => match row.getI32 idx with | some v => .Int v | none => .Null
    | .Int8 => match row.getI64 idx with | some v => .Int v | none => .Null
    | .Intn =>
      match row.getI64 idx with
      | some v => .Int v
      | none => match row.getI32 idx with | some v => .Int v | none => .Null
    | .Float4 => match row.getF32 idx with | some v => .Float v | none => .Null
    | .Float8 => match row.getF64 idx with | some v => .Float v | none => .Null
    | .Floatn =>
      match row.getF64 idx with
      | some v => .Float v
      | none => match row.getF32 idx with | some v => .Float v | none => .Null
    | .Decimaln | .Numericn =>
      match row.getNumeric idx with | some v => .Float v | none => .Null
    | .Money | .Money4 => match row.getF64 idx with | some v => .Float v | none => .Null
    | .Bit | .Bitn => match row.getBool idx with | some v => .Bool v | none => .Null
    | .BigVarChar | .BigChar | .NVarchar | .NChar | .Text | .NText =>
      match row.getStr idx with | some s => .String s | none => .Null
    | .Datetime | .Datetime2 | .Datetimen | .Datetime4 =>
      match row.getDateTime idx with | some s => .DateTime s | none => .Null
    | .DatetimeOffsetn =>
      match row.getDateTimeUtc idx with | some s => .DateTime s | none => .Null
    | .Daten => match row.getDate idx with | some s => .DateTime s | none => .Null
    | .Timen => match row.getTime idx with | some s => .DateTime s | none => .Null
    | .BigVarBin | .BigBinary | .Image =>
      match row.getBytes idx with | some b => .Binary b | none => .Null
    | .Guid => match row.getUuid idx with | some s => .String s | none => .Null
    | .Xml => match row.getXml idx with | some s => .String s | none => .Null
    | .Udt | .SSVariant =>
      match row.getStr idx with | some s => .String s | none => .Null

/-- The typed getters the `from_row` branch for a column type consults all
yield no value. -/
def getters_none (row : RowData) (idx : Nat) : ColumnType → Prop
  | .Null => True
  | .Int1 => row.getU8 idx = none
  | .Int2 => row.getI16 idx = none
  | .Int4 => row.getI32 idx = none
  | .Int8 => row.getI64 idx = none
  | .Intn => row.getI64 idx = none ∧ row.getI32 idx = none
  | .Float4 => row.getF32 idx = none
  | .Float8 => row.getF64 idx = none
  | .Floatn => row.getF64 idx = none ∧ row.getF32 idx = none
  | .Decimaln | .Numericn => row.getNumeric idx = none
  | .Money | .Money4 => row.getF64 idx = none
  | .Bit | .Bitn => row.getBool idx = none
  | .BigVarChar | .BigChar | .NVarchar | .NChar | .Text | .NText => row.getStr idx = none
  | .Datetime | .Datetime2 | .Datetimen | .Datetime4 => row.getDateTime idx = none
  | .DatetimeOffsetn => row.getDateTimeUtc idx = none
  | .Daten => row.getDate idx = none
  | .Timen => row.getTime idx = none
  | .BigVarBin | .BigBinary | .Image => row.getBytes idx = none
  | .Guid => row.getUuid idx = none
  | .Xml => row.getXml idx = none
  | .Udt | .SSVariant => row.getStr idx = none

/-- C10: cell conversion is a total function of the row oracle, the index and
the column type (every branch ends in a value, never a panic or error), and
whenever the typed getters its branch consults yield no value, the result is
`CellValue.Null`. -/
theorem C10_from_row_null_on_missing (row : RowData) (idx : Nat) (ct : ColumnType)
    (h : getters_none row idx ct) : CellValue.from_row row idx ct = CellValue.Null := by
  cases ct <;>
    simp only [getters_none] at h <;>
    first
      | (obtain ⟨h1, h2⟩ := h
         simp [CellValue.from_row, h1, h2])
      | simp [CellValue.from_row, h]

/-- A row whose every typed getter yields no value. -/
def blank_row : RowData :=
  { getStr := fun _ => none, getI32 := fun _ => none, getBool := fun _ => none,
    getU8 := fun _ => none, getI16 := fun _ => none, getI64 := fun _ => none,
    getF32 := fun _ => none, getF64 := fun _ => none, getNumeric := fun _ => none,
    getDateTime := fun _ => none, getDateTimeUtc := fun _ => none,
    getDate := fun _ => none, getTime := fun _ => none, getBytes := fun _ => none,
    getUuid := fun _ => none, getXml := fun _ => none }

/-- C10 witness: the Null default evaluated at an all-missing row with the
Intn fallback chain. -/
theorem C10_from_row_null_on_missing_witness :
    CellValue.from_row blank_row 0 ColumnType.Intn = CellValue.Null :=
  C10_from_row_null_on_missing blank_row 0 ColumnType.Intn ⟨rfl, rfl⟩

/-- Embedding of `QueryResult` (src/src-tauri/src/db/query.rs). -/
structure QueryResult where
  query_id : String
  columns : List ColumnInfo
  rows : List (List CellValue)
  row_count : Nat
  execution_time_ms : Nat
  error : Option Chars
  is_complete : Bool
  is_selection : Bool
  statement_index : Option Nat
  statement_text : Option Chars
  deriving Repr, DecidableEq

/-- `QueryResult::with_error`: note that it carries no statement index or
text. -/
def QueryResult.with_error (query_id : String) (error : Chars) : QueryResult :=
  { query_id := query_id, columns := [], rows := [], row_count := 0,
    execution_time_ms := 0, error := some error, is_complete := true,
    is_selection := false, statement_index := none, statement_text := none }

/-- The result built by `QueryEngine::make_cancelled_result`. -/
def make_cancelled_result (query_id : String) (elapsed_ms : Nat) (is_selection : Bool)
    (statement_index : Option Nat) (statement_text : Option Chars) : QueryResult :=
  { query_id := query_id, columns := [], rows := [], row_count := 0,
    execution_time_ms := elapsed_ms, error := some "Query cancelled".toList,
    is_complete := true, is_selection := is_selection,
    statement_index := statement_index, statement_text := statement_text }

/-- Behaviour of one statement's execution as seen by
`execute_single_statement`, abstracting the server and the cancellation
race: the dedicated connection fails (`connError`, propagated as `Err`), the
cancel signal wins the select (`cancelled`), the server rejects the
statement with an error text (`serverError`), or the query completes and its
first result set converts to the given columns and rows (`completed`). -/
inductive StmtExec where
  | connError (msg : Chars)
  | cancelled
  | serverError (msg : Chars)
  | completed (columns : List ColumnInfo) (rows : List (List CellValue))
  deriving Repr, DecidableEq

/-- `QueryEngine::execute_single_statement` given the statement's execution
behaviour: DML detection by first keyword synthesises the one-cell success
row; a server error whose text matches the connection-reset pattern is
reported as cancelled; a connection-level error propagates as `Err`. -/
def execute_single_statement (o : StmtExec) (query_id : String) (query : Chars)
    (elapsed_ms : Nat) (is_selection : Bool) (statement_index : Option Nat)
    (statement_text : Option Chars) : Except Chars QueryResult :=
  match o with
  | .connError msg => .error msg
  | .cancelled =>
    .ok (make_cancelled_result query_id elapsed_ms is_selection statement_index
      statement_text)
  | .serverError msg =>
    if containsSubL msg "connection closed".toList || containsSubL msg "reset".toList then
      .ok (make_cancelled_result query_id elapsed_ms is_selection statement_index
        statement_text)
    else
      .ok (QueryResult.with_error query_id msg)
  | .completed cols rows =>
    let query_upper := toUpperL (trimL query)
    let is_dml := startsWithL query_upper "UPDATE".toList ||
      startsWithL query_upper "INSERT".toList ||
      startsWithL query_upper "DELETE".toList ||
      startsWithL query_upper "MERGE".toList
    let converted :=
      if is_dml then
        ([({ name := "Result".toList, data_type := "String".toList,
             nullable := false } : ColumnInfo)],
         [[CellValue.String "Query executed successfully".toList]])
      else (cols, rows)
    .ok { query_id := query_id, columns := converted.1, rows := converted.2,
          row_count := converted.2.length, execution_time_ms := elapsed_ms,
          error := none, is_complete := true, is_selection := is_selection,
          statement_index := statement_index, statement_text := statement_text }

/-- The result the batch loop records for statement `i`: the Ok result, or,
on a connection-level error, a `with_error` result under a fresh uuid. -/
def batch_step (o : StmtExec) (query_id err_query_id : String) (stmt : Chars)
    (elapsed_ms : Nat) (is_selection : Bool) (i : Nat) : QueryResult :=
  match execute_single_statement o query_id stmt elapsed_ms is_selection
      (some i) (some stmt) with
  | .ok r => r
  | .error e => QueryResult.with_error err_query_id e

/-- `result.error.as_ref().map_or(false, |e| e.contains("cancelled"))`. -/
def error_contains_cancelled (e : Option Chars) : Bool :=
  match e with
  | some msg => containsSubL msg "cancelled".toList
  | none => false

/-- `QueryEngine::execute_batch`: statements run sequentially from index `i`;
an Ok result whose error text contains "cancelled" is pushed and stops the
batch; a connection-level `Err` pushes a `with_error` result under a fresh
uuid and stops. `qids`, `eqids` and `ems` supply each index's uuid,
error-uuid and elapsed milliseconds. -/
def execute_batch (o : Nat → StmtExec) (qids eqids : Nat → String) (ems : Nat → Nat)
    (is_selection : Bool) : Nat → List Chars → List QueryResult
  | _, [] => []
  | i, stmt :: rest =>
    match execute_single_statement (o i) (qids i) stmt (ems i) is_selection
        (some i) (some stmt) with
    | .ok r =>
      if error_contains_cancelled r.error then [r]
      else r :: execute_batch o qids eqids ems is_selection (i + 1) rest
    | .error e => [QueryResult.with_error (eqids i) e]

/-- `QueryEngine::execute_query`: parse the script, then the single-statement
path (no statement index or text) or the batch path. -/
def execute_query (o : Nat → StmtExec) (qids eqids : Nat → String) (ems : Nat → Nat)
    (query : Chars) (is_selection : Bool) : Except Chars (List QueryResult) :=
  let statements := parse_sql_statements query
  if statements.length = 1 then
    (execute_single_statement (o 0) (qids 0) (statements.headD []) (ems 0) is_selection
      none none).map (fun r => [r])
  else
    .ok (execute_batch o qids eqids ems is_selection 0 statements)

lemma execute_batch_length_le (o : Nat → StmtExec) (qids eqids : Nat → String)
    (ems : Nat → Nat) (sel : Bool) :
    ∀ (stmts : List Chars) (i : Nat),
      (execute_batch o qids eqids ems sel i stmts).length ≤ stmts.length := by
  intro stmts
  induction stmts with
  | nil => intro i; simp [execute_batch]
  | cons s rest ih =>
    intro i
    rcases hE : execute_single_statement (o i) (qids i) s (ems i) sel (some i) (some s)
      with e | r
    · simp only [execute_batch, hE, List.length_singleton, List.length_cons,
        List.length_nil]
      omega
    · simp only [execute_batch, hE]
      split_ifs
      · simp only [List.length_singleton, List.length_cons, List.length_nil]
        omega
      · simp only [List.length_cons]
        exact Nat.succ_le_succ (ih (i + 1))

lemma execute_batch_cons_ne_nil (o : Nat → StmtExec) (qids eqids : Nat → String)
    (ems : Nat → Nat) (sel : Bool) (s : Chars) (rest : List Chars) (i : Nat) :
    execute_batch o qids eqids ems sel i (s :: rest) ≠ [] := by
  rcases hE : execute_single_statement (o i) (qids i) s (ems i) sel (some i) (some s)
    with e | r
  · simp [execute_batch, hE]
  · simp only [execute_batch, hE]
    split_ifs <;> simp

lemma execute_batch_getElem? (o : Nat → StmtExec) (qids eqids : Nat → String)
    (ems : Nat → Nat) (sel : Bool) :
    ∀ (stmts : List Chars) (i j : Nat),
      j < (execute_batch o qids eqids ems sel i stmts).length →
      (execute_batch o qids eqids ems sel i stmts)[j]? =
        (stmts[j]?).map (fun s =>
          batch_step (o (i + j)) (qids (i + j)) (eqids (i + j)) s (ems (i + j)) sel
            (i + j)) := by
  intro stmts
  induction stmts with
  | nil =>
    intro i j hj
    simp [execute_batch] at hj
  | cons s rest ih =>
    intro i j hj
    rcases hE : execute_single_statement (o i) (qids i) s (ems i) sel (some i) (some s)
      with e | r
    · simp only [execute_batch, hE, List.length_singleton, List.length_nil,
        List.length_cons] at hj
      have hj0 : j = 0 := by omega
      subst hj0
      simp [execute_batch, batch_step, hE]
    · simp only [execute_batch, hE] at hj ⊢
      by_cases hc : error_contains_cancelled r.error = true
      · rw [if_pos hc] at hj ⊢
        simp only [List.length_singleton, List.length_nil, List.length_cons] at hj
        have hj0 : j = 0 := by omega
        subst hj0
        simp [batch_step, hE]
      · rw [if_neg hc] at hj ⊢
        cases j with
        | zero => simp [batch_step, hE]
        | succ k =>
          simp only [List.length_cons] at hj
          have hk : k < (execute_batch o qids eqids ems sel (i + 1) rest).length := by
            omega
          simp only [List.getElem?_cons_succ]
          rw [ih (i + 1) k hk]
          rw [(by omega : i + 1 + k = i + (k + 1))]

lemma execute_batch_continues (o : Nat → StmtExec) (qids eqids : Nat → String)
    (ems : Nat → Nat) (sel : Bool) :
    ∀ (stmts : List Chars) (i j : Nat) (msg : Chars),
      j + 1 < stmts.length →
      j < (execute_batch o qids eqids ems sel i stmts).length →
      o (i + j) = .serverError msg →
      containsSubL msg "cancelled".toList = false →
      containsSubL msg "connection closed".toList = false →
      containsSubL msg "reset".toList = false →
      j + 1 < (execute_batch o qids eqids ems sel i stmts).length := by
  intro stmts
  induction stmts with
  | nil => intro i j msg h1; simp at h1
  | cons s rest ih =>
    intro i j msg h1 h2 ho hc1 hc2 hc3
    cases j with
    | zero =>
      have ho' : o i = .serverError msg := by simpa using ho
      have hE : execute_single_statement (o i) (qids i) s (ems i) sel (some i) (some s) =
          .ok (QueryResult.with_error (qids i) msg) := by
        rw [ho']
        simp only [execute_single_statement]
        rw [hc2, hc3]
        simp
      have hstop : error_contains_cancelled (QueryResult.with_error (qids i) msg).error
          = false := by
        simp only [QueryResult.with_error, error_contains_cancelled]
        exact hc1
      simp only [execute_batch, hE]
      rw [if_neg (by simp [hstop])]
      simp only [List.length_cons]
      simp only [List.length_cons] at h1
      rcases rest with _ | ⟨s', rest'⟩
      · simp at h1
      · have := List.length_pos.mpr
          (execute_batch_cons_ne_nil o qids eqids ems sel s' rest' (i + 1))
        omega
    | succ k =>
      rcases hE : execute_single_statement (o i) (qids i) s (ems i) sel (some i) (some s)
        with e | r
      · simp only [execute_batch, hE, List.length_singleton] at h2
        omega
      · simp only [execute_batch, hE] at h2 ⊢
        by_cases hc : error_contains_cancelled r.error = true
        · rw [if_pos hc] at h2
          simp only [List.length_singleton] at h2
          omega
        · rw [if_neg hc] at h2 ⊢
          simp only [List.length_cons] at h1 h2 ⊢
          have h2' : k < (execute_batch o qids eqids ems sel (i + 1) rest).length := by
            omega
          have ho' : o (i + 1 + k) = .serverError msg := by
            rw [(by omega : i + 1 + k = i + (k + 1))]
            exact ho
          have := ih (i + 1) k msg (by omega) h2' ho' hc1 hc2 hc3
          omega

lemma execute_batch_conn_stops (o : Nat → StmtExec) (qids eqids : Nat → String)
    (ems : Nat → Nat) (sel : Bool) :
    ∀ (stmts : List Chars) (i j : Nat) (msg : Chars),
      j < (execute_batch o qids eqids ems sel i stmts).length →
      o (i + j) = .connError msg →
      (execute_batch o qids eqids ems sel i stmts).length = j + 1 := by
  intro stmts
  induction stmts with
  | nil => intro i j msg hj; simp [execute_batch] at hj
  | cons s rest ih =>
    intro i j msg hj ho
    cases j with
    | zero =>
      have ho' : o i = .connError msg := by simpa using ho
      have hE : execute_single_statement (o i) (qids i) s (ems i) sel (some i) (some s) =
          .error msg := by
        rw [ho']
        simp only [execute_single_statement]
      simp [execute_batch, hE]
    | succ k =>
      rcases hE : execute_single_statement (o i) (qids i) s (ems i) sel (some i) (some s)
        with e | r
      · simp only [execute_batch, hE, List.length_singleton] at hj
        omega
      · simp only [execute_batch, hE] at hj ⊢
        by_cases hc : error_contains_cancelled r.error = true
        · rw [if_pos hc] at hj
          simp only [List.length_singleton] at hj
          omega
        · rw [if_neg hc] at hj ⊢
          simp only [List.length_cons] at hj ⊢
          have hk : k < (execute_batch o qids eqids ems sel (i + 1) rest).length := by
            omega
          have ho' : o (i + 1 + k) = .connError msg := by
            rw [(by omega : i + 1 + k = i + (k + 1))]
            exact ho
          rw [ih (i + 1) k msg hk ho']

/-- Statement 0 fails with an ordinary server-side error whose text happens
to contain the word "cancelled"; statement 1 would succeed. -/
def c4_outcome : Nat → StmtExec := fun i =>
  if i = 0 then .serverError "job cancelled".toList else .completed [] []

/-- C4 counterexample: in a two-statement batch whose first statement fails
with the server-side error text "job cancelled", the error is returned as an
ordinary result (error field set, not a connection error), yet the batch
stops and the second statement never runs — the returned list has length 1,
refuting the claim that after a per-statement error the next statement still
runs. -/
theorem C4_execute_batch_counterexample :
    (execute_batch c4_outcome (fun _ => "q") (fun _ => "e") (fun _ => 0) false 0
      ["SELECT 1;".toList, "SELECT 2;".toList]).length = 1 ∧
    ((execute_batch c4_outcome (fun _ => "q") (fun _ => "e") (fun _ => 0) false 0
      ["SELECT 1;".toList, "SELECT 2;".toList]).headD
        (QueryResult.with_error "x" [])).error = some "job cancelled".toList := by
  decide

/-- C4 (amended): a returned Ok list of execute_query never exceeds the
number of parsed statements; batch position j is exactly the recorded result
of statement j (per-statement server errors appear as ordinary results with
the error field set); after a per-statement server error whose text contains
none of "cancelled"/"connection closed"/"reset" the next statement still
runs; and the batch stops directly after a connection-level error. -/
theorem C4_execute_batch_amended :
    (∀ (o : Nat → StmtExec) (qids eqids : Nat → String) (ems : Nat → Nat)
      (sel : Bool) (q : Chars) (rs : List QueryResult),
      execute_query o qids eqids ems q sel = .ok rs →
      rs.length ≤ (parse_sql_statements q).length) ∧
    (∀ (o : Nat → StmtExec) (qids eqids : Nat → String) (ems : Nat → Nat)
      (sel : Bool) (stmts : List Chars) (j : Nat),
      j < (execute_batch o qids eqids ems sel 0 stmts).length →
      (execute_batch o qids eqids ems sel 0 stmts)[j]? =
        (stmts[j]?).map (fun s =>
          batch_step (o j) (qids j) (eqids j) s (ems j) sel j)) ∧
    (∀ (o : Nat → StmtExec) (qids eqids : Nat → String) (ems : Nat → Nat)
      (sel : Bool) (stmts : List Chars) (j : Nat) (msg : Chars),
      j + 1 < stmts.length →
      j < (execute_batch o qids eqids ems sel 0 stmts).length →
      o j = .serverError msg →
      containsSubL msg "cancelled".toList = false →
      containsSubL msg "connection closed".toList = false →
      containsSubL msg "reset".toList = false →
      j + 1 < (execute_batch o qids eqids ems sel 0 stmts).length) ∧
    (∀ (o : Nat → StmtExec) (qids eqids : Nat → String) (ems : Nat → Nat)
      (sel : Bool) (stmts : List Chars) (j : Nat) (msg : Chars),
      j < (execute_batch o qids eqids ems sel 0 stmts).length →
      o j = .connError msg →
      (execute_batch o qids eqids ems sel 0 stmts).length = j + 1) := by
  refine ⟨?_, ?_, ?_, ?_⟩
  · intro o qids eqids ems sel q rs h
    unfold execute_query at h
    dsimp only at h
    split_ifs at h with hlen
    · rcases hE : execute_single_statement (o 0) (qids 0)
          ((parse_sql_statements q).headD []) (ems 0) sel none none with e | r
      · rw [hE] at h
        simp [Except.map] at h
      · rw [hE] at h
        simp only [Except.map] at h
        injection h with h'
        rw [← h', hlen]
        simp
    · injection h with h'
      rw [← h']
      exact execute_batch_length_le o qids eqids ems sel _ 0
  · intro o qids eqids ems sel stmts j hj
    simpa using execute_batch_getElem? o qids eqids ems sel stmts 0 j hj
  · intro o qids eqids ems sel stmts j msg h1 h2 ho hc1 hc2 hc3
    exact execute_batch_continues o qids eqids ems sel stmts 0 j msg h1 h2
      (by simpa using ho) hc1 hc2 hc3
  · intro o qids eqids ems sel stmts j msg hj ho
    exact execute_batch_conn_stops o qids eqids ems sel stmts 0 j msg hj
      (by simpa using ho)

/-- Every statement fails with an ordinary syntax error (no "cancelled",
"connection closed" or "reset" in the text). -/
def c4w_outcome : Nat → StmtExec := fun _ =>
  .serverError "Incorrect syntax near FOO".toList

/-- C4 witness: the continuation clause applied concretely — a two-statement
batch whose first statement fails with an ordinary server error still runs
the second statement, so both results are returned. -/
theorem C4_execute_batch_amended_witness :
    (execute_batch c4w_outcome (fun _ => "q") (fun _ => "e") (fun _ => 0) false 0
      ["SELECT 1;".toList, "SELECT 2;".toList]).length = 2 := by
  have h1 := C4_execute_batch_amended.2.2.1 c4w_outcome (fun _ => "q") (fun _ => "e")
    (fun _ => 0) false ["SELECT 1;".toList, "SELECT 2;".toList] 0
    "Incorrect syntax near FOO".toList (by decide) (by decide) rfl
    (by decide) (by decide) (by decide)
  have h2 := execute_batch_length_le c4w_outcome (fun _ => "q") (fun _ => "e")
    (fun _ => 0) false ["SELECT 1;".toList, "SELECT 2;".toList] 0
  simp only [List.length_cons, List.length_singleton, List.length_nil] at h1 h2
  omega
